import Mathlib

/-!
Verification of the resilience middleware: a circuit breaker state machine
(`core/circuit_breaker.py`), an event producer (`event_publisher/publisher.py`)
and an event subscriber (`event_subscriber/subscriber.py`).

The Python code is shallowly embedded: mutable breaker attributes become an
explicit `BreakerState` record threaded through `execute`; the guarded
operation is modelled by its outcome (`Except ε α`); wall-clock time and the
float-valued timeouts are modelled by exact rationals.  `execute` additionally
reports how many times the guarded operation was invoked (0 or 1), so that
call-counting claims can be stated directly.
-/

/-- `CircuitState` from `core/interfaces.py`. -/
inductive CircuitState where
  | CLOSED
  | OPEN
  | HALF_OPEN
deriving DecidableEq

/-- `CircuitBreakerConfig` from `config.py`: threshold is a Python int,
the timeouts and backoff factor are floats (modelled as rationals). -/
structure CircuitBreakerConfig where
  failure_threshold : ℤ
  reset_timeout : ℚ
  max_reset_timeout : ℚ
  backoff_factor : ℚ
deriving DecidableEq

/-- The defaults of `CircuitBreakerConfig` (threshold 5, reset 60.0,
max reset 300.0, backoff 1.5). -/
def defaultConfig : CircuitBreakerConfig :=
  { failure_threshold := 5, reset_timeout := 60, max_reset_timeout := 300,
    backoff_factor := 3 / 2 }

/-- The mutable attributes of `DefaultCircuitBreaker`. -/
structure BreakerState where
  state : CircuitState
  failure_count : ℕ
  last_failure_time : Option ℚ
  current_reset_timeout : ℚ
deriving DecidableEq

/-- `DefaultCircuitBreaker.__init__`: CLOSED, zero failures, no failure time,
current reset timeout initialised to `config.reset_timeout`. -/
def initBreaker (cfg : CircuitBreakerConfig) : BreakerState :=
  { state := .CLOSED, failure_count := 0, last_failure_time := none,
    current_reset_timeout := cfg.reset_timeout }

/-- `DefaultCircuitBreaker._reset`. -/
def resetBreaker (cfg : CircuitBreakerConfig) : BreakerState :=
  { state := .CLOSED, failure_count := 0, last_failure_time := none,
    current_reset_timeout := cfg.reset_timeout }

/-- `DefaultCircuitBreaker._record_failure`: increment the count, stamp the
failure time, and if the count has reached the threshold, open the circuit
with exponential backoff capped at `max_reset_timeout`. -/
def recordFailure (cfg : CircuitBreakerConfig) (now : ℚ) (s : BreakerState) :
    BreakerState :=
  if cfg.failure_threshold ≤ ((s.failure_count + 1 : ℕ) : ℤ) then
    { state := .OPEN, failure_count := s.failure_count + 1,
      last_failure_time := some now,
      current_reset_timeout :=
        min (s.current_reset_timeout * cfg.backoff_factor) cfg.max_reset_timeout }
  else
    { state := s.state, failure_count := s.failure_count + 1,
      last_failure_time := some now,
      current_reset_timeout := s.current_reset_timeout }

/-- The visible outcome of one `execute` call: rejection by the breaker
(`CircuitBreakerError`, called `CircuitOpenError` in the spec), the guarded
operation's value, or the guarded operation's re-raised exception. -/
inductive ExecResult (α ε : Type) where
  | circuitOpen : ExecResult α ε
  | ok : α → ExecResult α ε
  | opError : ε → ExecResult α ε
deriving DecidableEq

/-- One `execute` call: its result, the breaker state afterwards, and how many
times the guarded operation was invoked. -/
structure ExecOutcome (α ε : Type) where
  result : ExecResult α ε
  post : BreakerState
  calls : ℕ
deriving DecidableEq

/-- The `try` body of `DefaultCircuitBreaker.execute`: run the operation; on
success reset fully if the state was not CLOSED; on failure record it and
re-raise the original exception. -/
def attempt {α ε : Type} (cfg : CircuitBreakerConfig) (now : ℚ)
    (op : Except ε α) (s : BreakerState) : ExecOutcome α ε :=
  match op with
  | .ok a => ⟨.ok a, if s.state ≠ .CLOSED then resetBreaker cfg else s, 1⟩
  | .error e => ⟨.opError e, recordFailure cfg now s, 1⟩

/-- `DefaultCircuitBreaker.execute`: when OPEN and the reset timeout has not
elapsed, raise `CircuitBreakerError` without invoking the operation; when OPEN
and it has elapsed, move to HALF_OPEN and attempt; otherwise attempt. -/
def execute {α ε : Type} (cfg : CircuitBreakerConfig) (now : ℚ)
    (op : Except ε α) (s : BreakerState) : ExecOutcome α ε :=
  if s.state = .OPEN then
    if now - (s.last_failure_time.getD 0) < s.current_reset_timeout then
      ⟨.circuitOpen, s, 0⟩
    else
      attempt cfg now op { s with state := .HALF_OPEN }
  else
    attempt cfg now op s

/-- Run a sequence of `execute` calls, each given as (time, operation outcome),
keeping only the evolving breaker state. -/
def runOps (cfg : CircuitBreakerConfig) (l : List (ℚ × Except Unit Unit))
    (s : BreakerState) : BreakerState :=
  l.foldl (fun t p => (execute cfg p.1 p.2 t).post) s

/-- Run a sequence of failing `execute` calls at the given times. -/
def runFails (cfg : CircuitBreakerConfig) (ts : List ℚ) (s : BreakerState) :
    BreakerState :=
  runOps cfg (ts.map (fun t => (t, Except.error ()))) s

/-- The breaker states reachable from a fresh breaker by `execute` calls. -/
inductive Reachable (cfg : CircuitBreakerConfig) : BreakerState → Prop where
  | init : Reachable cfg (initBreaker cfg)
  | step : ∀ {s : BreakerState} (now : ℚ) (op : Except Unit Unit),
      Reachable cfg s → Reachable cfg (execute cfg now op s).post

example :
    (execute defaultConfig 0 (Except.error () : Except Unit Unit)
        (initBreaker defaultConfig)).post.failure_count = 1 := by
  norm_num +decide [execute, attempt, recordFailure, initBreaker, defaultConfig]

example :
    (runFails defaultConfig [0, 1, 2, 3, 4] (initBreaker defaultConfig)).state
      = CircuitState.OPEN := by
  norm_num +decide [runFails, runOps, execute, attempt, recordFailure, initBreaker,
    defaultConfig]

example :
    (runFails defaultConfig [0, 1, 2, 3, 4] (initBreaker defaultConfig)).current_reset_timeout
      = 90 := by
  norm_num +decide [runFails, runOps, execute, attempt, recordFailure, initBreaker,
    defaultConfig]

/-! ### Structural lemmas about one `execute` step -/

/-- Closed form of `recordFailure`. -/
theorem recordFailure_eq (cfg : CircuitBreakerConfig) (now : ℚ) (s : BreakerState) :
    recordFailure cfg now s =
      if cfg.failure_threshold ≤ ((s.failure_count + 1 : ℕ) : ℤ) then
        { state := .OPEN, failure_count := s.failure_count + 1,
          last_failure_time := some now,
          current_reset_timeout :=
            min (s.current_reset_timeout * cfg.backoff_factor) cfg.max_reset_timeout }
      else
        { state := s.state, failure_count := s.failure_count + 1,
          last_failure_time := some now,
          current_reset_timeout := s.current_reset_timeout } := rfl

/-- `recordFailure` always increments the failure count by one. -/
theorem recordFailure_failure_count (cfg : CircuitBreakerConfig) (now : ℚ)
    (s : BreakerState) :
    (recordFailure cfg now s).failure_count = s.failure_count + 1 := by
  rw [recordFailure_eq]
  split <;> rfl

/-- When the state is not OPEN, `execute` goes straight to the attempt. -/
theorem execute_not_open {α ε : Type} (cfg : CircuitBreakerConfig) (now : ℚ)
    (op : Except ε α) (s : BreakerState) (h : ¬ s.state = .OPEN) :
    execute cfg now op s = attempt cfg now op s := by
  unfold execute
  rw [if_neg h]

/-- When the state is OPEN and the reset timeout has elapsed, `execute`
attempts the operation from the HALF_OPEN state. -/
theorem execute_open_expired {α ε : Type} (cfg : CircuitBreakerConfig)
    (now t : ℚ) (op : Except ε α) (s : BreakerState)
    (hs : s.state = .OPEN) (hl : s.last_failure_time = some t)
    (he : ¬ now - t < s.current_reset_timeout) :
    execute cfg now op s = attempt cfg now op { s with state := .HALF_OPEN } := by
  unfold execute
  rw [hs, if_pos rfl, hl]
  simp only [Option.getD_some]
  rw [if_neg he]

/-- The four possible shapes of the breaker state after one `execute` call. -/
theorem execute_post_cases {α ε : Type} (cfg : CircuitBreakerConfig) (now : ℚ)
    (op : Except ε α) (s : BreakerState) :
    (execute cfg now op s).post = s
    ∨ (execute cfg now op s).post = resetBreaker cfg
    ∨ (execute cfg now op s).post = recordFailure cfg now s
    ∨ (s.state = .OPEN
       ∧ (execute cfg now op s).post
           = recordFailure cfg now { s with state := .HALF_OPEN }) := by
  unfold execute
  by_cases h : s.state = .OPEN
  · rw [if_pos h]
    by_cases h2 : now - (s.last_failure_time.getD 0) < s.current_reset_timeout
    · rw [if_pos h2]
      exact Or.inl rfl
    · rw [if_neg h2]
      cases op with
      | ok a =>
          refine Or.inr (Or.inl ?_)
          unfold attempt
          simp
      | error e => exact Or.inr (Or.inr (Or.inr ⟨h, rfl⟩))
  · rw [if_neg h]
    cases op with
    | ok a =>
        unfold attempt
        by_cases hc : s.state = .CLOSED
        · simp [hc]
        · simp [hc]
    | error e => exact Or.inr (Or.inr (Or.inl rfl))

/-! ### C1, C8, C10 -/

/-- C1: while the circuit is OPEN and the elapsed time since the last failure
is below the current reset timeout, `execute` rejects the call with the
circuit-open error, leaves the breaker state unchanged, and invokes the
guarded operation zero times. -/
theorem execute_open_within_timeout_rejects {α ε : Type}
    (cfg : CircuitBreakerConfig) (now t : ℚ) (s : BreakerState)
    (op : Except ε α) (hs : s.state = .OPEN) (hl : s.last_failure_time = some t)
    (he : now - t < s.current_reset_timeout) :
    execute cfg now op s = ⟨.circuitOpen, s, 0⟩ := by
  unfold execute
  rw [hs, if_pos rfl, hl]
  simp only [Option.getD_some]
  rw [if_pos he]

/-- A breaker that tripped once (threshold 1, reset 10, max 300, backoff 2). -/
def cfgW1 : CircuitBreakerConfig :=
  { failure_threshold := 1, reset_timeout := 10, max_reset_timeout := 300,
    backoff_factor := 2 }

/-- An OPEN breaker state whose last failure happened at time 0. -/
def sW1 : BreakerState :=
  { state := .OPEN, failure_count := 1, last_failure_time := some 0,
    current_reset_timeout := 10 }

theorem execute_open_within_timeout_rejects_witness :
    execute cfgW1 5 (Except.ok () : Except Unit Unit) sW1
      = ⟨.circuitOpen, sW1, 0⟩ :=
  execute_open_within_timeout_rejects cfgW1 5 0 sW1 (Except.ok ()) rfl rfl
    (by norm_num [sW1])

/-- C8: whenever the guarded operation is actually attempted (invoked once)
and raises, `execute` re-raises that very error as its result — it never
swallows it or substitutes another result — and it records the failure by
incrementing the failure count. -/
theorem execute_propagates_original_error {α ε : Type}
    (cfg : CircuitBreakerConfig) (now : ℚ) (s : BreakerState) (e : ε)
    (h : (execute cfg now (Except.error e : Except ε α) s).calls = 1) :
    (execute cfg now (Except.error e : Except ε α) s).result = .opError e
    ∧ (execute cfg now (Except.error e : Except ε α) s).post.failure_count
        = s.failure_count + 1 := by
  unfold execute at *
  by_cases hs : s.state = .OPEN
  · rw [if_pos hs] at *
    by_cases h2 : now - (s.last_failure_time.getD 0) < s.current_reset_timeout
    · rw [if_pos h2] at h
      exact absurd h (by norm_num)
    · rw [if_neg h2] at *
      exact ⟨rfl, recordFailure_failure_count cfg now _⟩
  · rw [if_neg hs] at *
    exact ⟨rfl, recordFailure_failure_count cfg now s⟩

theorem execute_propagates_original_error_witness :
    (execute cfgW1 0 (Except.error 7 : Except ℤ Unit)
        (initBreaker cfgW1)).result = .opError 7
    ∧ (execute cfgW1 0 (Except.error 7 : Except ℤ Unit)
          (initBreaker cfgW1)).post.failure_count
        = (initBreaker cfgW1).failure_count + 1 :=
  execute_propagates_original_error cfgW1 0 (initBreaker cfgW1) 7 rfl

/-- A breaker with threshold 2, used to show that non-consecutive failures
still open the circuit. -/
def cfgInterleaved : CircuitBreakerConfig :=
  { failure_threshold := 2, reset_timeout := 60, max_reset_timeout := 300,
    backoff_factor := 3 / 2 }

/-- C10: a successful `execute` in the CLOSED state returns the result and
leaves the breaker state — in particular `failure_count` — entirely unchanged
(the full reset only runs when the state was not CLOSED), while every failure
in the CLOSED state increments `failure_count`; consequently the count
accumulates across interleaved successes, and with threshold 2 the sequence
fail, success, fail opens the circuit. -/
theorem closed_success_preserves_failure_count
    (cfg : CircuitBreakerConfig) (now : ℚ) (s : BreakerState)
    (h : s.state = .CLOSED) :
    execute cfg now (Except.ok () : Except Unit Unit) s = ⟨.ok (), s, 1⟩
    ∧ (execute cfg now (Except.error () : Except Unit Unit) s).post.failure_count
        = s.failure_count + 1
    ∧ (runOps cfgInterleaved
          [(0, Except.error ()), (1, Except.ok ()), (2, Except.error ())]
          (initBreaker cfgInterleaved)).state = .OPEN := by
  have hno : ¬ s.state = .OPEN := by rw [h]; intro hc; exact CircuitState.noConfusion hc
  refine ⟨?_, ?_, ?_⟩
  · rw [execute_not_open cfg now _ s hno]
    unfold attempt
    rw [h]
    simp
  · rw [execute_not_open cfg now _ s hno]
    exact recordFailure_failure_count cfg now s
  · norm_num +decide [runOps, execute, attempt, recordFailure, initBreaker,
      cfgInterleaved]

theorem closed_success_preserves_failure_count_witness :
    execute defaultConfig 0 (Except.ok () : Except Unit Unit)
        (initBreaker defaultConfig) = ⟨.ok (), initBreaker defaultConfig, 1⟩
    ∧ (execute defaultConfig 0 (Except.error () : Except Unit Unit)
          (initBreaker defaultConfig)).post.failure_count
        = (initBreaker defaultConfig).failure_count + 1
    ∧ (runOps cfgInterleaved
          [(0, Except.error ()), (1, Except.ok ()), (2, Except.error ())]
          (initBreaker cfgInterleaved)).state = .OPEN :=
  closed_success_preserves_failure_count defaultConfig 0 (initBreaker defaultConfig) rfl

/-! ### C2: opening after exactly `failure_threshold` consecutive failures -/

/-- Running a batch of calls splits over list append. -/
theorem runOps_append (cfg : CircuitBreakerConfig)
    (a b : List (ℚ × Except Unit Unit)) (s : BreakerState) :
    runOps cfg (a ++ b) s = runOps cfg b (runOps cfg a s) := by
  unfold runOps
  exact List.foldl_append _ _ _ _

/-- Running failures splits over list append. -/
theorem runFails_append (cfg : CircuitBreakerConfig) (a b : List ℚ)
    (s : BreakerState) :
    runFails cfg (a ++ b) s = runFails cfg b (runFails cfg a s) := by
  unfold runFails
  rw [List.map_append]
  exact runOps_append cfg _ _ s

/-- While the accumulated failures stay strictly below the threshold, a batch
of failing calls keeps the breaker CLOSED, adds the batch length to the
failure count, and leaves the current reset timeout untouched. -/
theorem runFails_stays_closed (cfg : CircuitBreakerConfig) :
    ∀ (ts : List ℚ) (s : BreakerState), s.state = .CLOSED →
      ((s.failure_count : ℤ) + ts.length < cfg.failure_threshold) →
      (runFails cfg ts s).state = .CLOSED
      ∧ (runFails cfg ts s).failure_count = s.failure_count + ts.length
      ∧ (runFails cfg ts s).current_reset_timeout = s.current_reset_timeout := by
  intro ts
  induction ts with
  | nil =>
      intro s hs _
      exact ⟨hs, rfl, rfl⟩
  | cons t ts ih =>
      intro s hs hlt
      have hno : ¬ s.state = .OPEN := by
        rw [hs]; intro hc; exact CircuitState.noConfusion hc
      have hstep : runFails cfg (t :: ts) s
          = runFails cfg ts (recordFailure cfg t s) := by
        show runFails cfg ts (execute cfg t (Except.error ()) s).post
            = runFails cfg ts (recordFailure cfg t s)
        rw [execute_not_open cfg t _ s hno]
        rfl
      rw [List.length_cons] at hlt
      have hcond : ¬ cfg.failure_threshold ≤ ((s.failure_count + 1 : ℕ) : ℤ) := by
        push_cast at hlt ⊢
        omega
      have hrec : recordFailure cfg t s
          = { state := s.state, failure_count := s.failure_count + 1,
              last_failure_time := some t,
              current_reset_timeout := s.current_reset_timeout } := by
        rw [recordFailure_eq, if_neg hcond]
      rw [hstep, hrec]
      have hlt2 : (((s.failure_count + 1 : ℕ) : ℤ) + ts.length
          < cfg.failure_threshold) := by
        push_cast at hlt ⊢
        linarith
      have := ih { state := s.state, failure_count := s.failure_count + 1,
                   last_failure_time := some t,
                   current_reset_timeout := s.current_reset_timeout } hs hlt2
      refine ⟨this.1, ?_, this.2.2⟩
      rw [this.2.1]
      simp [List.length_cons]
      omega

/-- C2: starting from CLOSED with zero failures, exactly `failure_threshold`
consecutive failing calls (threshold at least one) open the circuit and set
the current reset timeout to `min (current * backoff_factor) max_reset_timeout`;
moreover any single `execute` step that moves a non-OPEN breaker to OPEN
leaves a failure count that has reached the threshold. -/
theorem closed_failures_open_at_threshold
    (cfg : CircuitBreakerConfig) (h1 : 1 ≤ cfg.failure_threshold)
    (s : BreakerState) (hs : s.state = .CLOSED) (hc : s.failure_count = 0)
    (ts : List ℚ) (hlen : (ts.length : ℤ) = cfg.failure_threshold) :
    ((runFails cfg ts s).state = .OPEN
      ∧ (runFails cfg ts s).current_reset_timeout
          = min (s.current_reset_timeout * cfg.backoff_factor)
              cfg.max_reset_timeout)
    ∧ ∀ (s2 : BreakerState) (now : ℚ) (op : Except Unit Unit),
        ¬ s2.state = .OPEN → (execute cfg now op s2).post.state = .OPEN →
        cfg.failure_threshold ≤ ((execute cfg now op s2).post.failure_count : ℤ) := by
  constructor
  · -- the batch of exactly `threshold` failures
    have hne : ts ≠ [] := by
      intro hnil
      rw [hnil] at hlen
      simp at hlen
      omega
    obtain ⟨a, t, hsplit⟩ : ∃ a t, ts = a ++ [t] :=
      ⟨ts.dropLast, ts.getLast hne, (List.dropLast_append_getLast hne).symm⟩
    have hlena : ((a.length : ℤ)) = cfg.failure_threshold - 1 := by
      rw [hsplit] at hlen
      simp only [List.length_append, List.length_singleton] at hlen
      push_cast at hlen ⊢
      omega
    have hmid := runFails_stays_closed cfg a s hs (by rw [hc, hlena]; omega)
    set m := runFails cfg a s with hm
    have hmc : m.failure_count = a.length := by
      have := hmid.2.1
      rw [hc] at this
      simpa using this
    have hmno : ¬ m.state = .OPEN := by
      rw [hmid.1]; intro hcon; exact CircuitState.noConfusion hcon
    have hstep : runFails cfg ts s = recordFailure cfg t m := by
      rw [hsplit, runFails_append, ← hm]
      show (execute cfg t (Except.error ()) m).post = recordFailure cfg t m
      rw [execute_not_open cfg t _ m hmno]
      rfl
    have hcond : cfg.failure_threshold ≤ ((m.failure_count + 1 : ℕ) : ℤ) := by
      rw [hmc]
      push_cast
      omega
    rw [hstep, recordFailure_eq, if_pos hcond]
    exact ⟨rfl, by rw [hmid.2.2]⟩
  · -- a transition to OPEN only happens at or above the threshold
    intro s2 now op hne hopen
    rw [execute_not_open cfg now op s2 hne] at hopen ⊢
    cases op with
    | ok a =>
        exfalso
        unfold attempt at hopen
        by_cases hc2 : s2.state = .CLOSED
        · rw [if_neg (not_not_intro hc2)] at hopen
          rw [hc2] at hopen
          exact CircuitState.noConfusion hopen
        · rw [if_pos hc2] at hopen
          exact CircuitState.noConfusion hopen
    | error e =>
        unfold attempt at hopen ⊢
        simp only at hopen ⊢
        rw [recordFailure_eq] at hopen ⊢
        by_cases hcond : cfg.failure_threshold ≤ ((s2.failure_count + 1 : ℕ) : ℤ)
        · rw [if_pos hcond] at hopen ⊢
          exact hcond
        · rw [if_neg hcond] at hopen
          exact absurd hopen hne

/-- Threshold-2 breaker used in the C2 witness. -/
def cfgW2 : CircuitBreakerConfig :=
  { failure_threshold := 2, reset_timeout := 60, max_reset_timeout := 300,
    backoff_factor := 3 / 2 }

/-- A CLOSED breaker one failure short of the threshold of `cfgW2`. -/
def sW2 : BreakerState :=
  { state := .CLOSED, failure_count := 1, last_failure_time := some 0,
    current_reset_timeout := 60 }

theorem closed_failures_open_at_threshold_witness :
    ((runFails cfgW2 [0, 1] (initBreaker cfgW2)).state = .OPEN
      ∧ (runFails cfgW2 [0, 1] (initBreaker cfgW2)).current_reset_timeout
          = min ((initBreaker cfgW2).current_reset_timeout * cfgW2.backoff_factor)
              cfgW2.max_reset_timeout)
    ∧ cfgW2.failure_threshold
        ≤ (((execute cfgW2 5 (Except.error () : Except Unit Unit) sW2).post.failure_count : ℕ) : ℤ) := by
  have h := closed_failures_open_at_threshold cfgW2 (by norm_num [cfgW2])
    (initBreaker cfgW2) rfl rfl [0, 1] (by norm_num [cfgW2])
  refine ⟨h.1, h.2 sW2 5 (Except.error ()) ?_ ?_⟩
  · intro hcon
    exact CircuitState.noConfusion hcon
  · norm_num +decide [execute, attempt, recordFailure, sW2, cfgW2]

/-! ### Reachability invariants, C3 and C9 -/

/-- In every reachable breaker state that is not CLOSED, the failure count has
reached the threshold (the circuit only leaves CLOSED by tripping). -/
theorem reachable_not_closed_threshold (cfg : CircuitBreakerConfig)
    (s : BreakerState) (hr : Reachable cfg s) :
    ¬ s.state = .CLOSED → cfg.failure_threshold ≤ (s.failure_count : ℤ) := by
  induction hr with
  | init =>
      intro h
      exact absurd rfl h
  | step now op hr ih =>
      rename_i s0
      rcases execute_post_cases cfg now op s0 with h | h | h | ⟨hs0, h⟩
      · rw [h]; exact ih
      · rw [h]
        intro hcon
        exact absurd rfl hcon
      · rw [h, recordFailure_eq]
        by_cases hcond : cfg.failure_threshold ≤ ((s0.failure_count + 1 : ℕ) : ℤ)
        · rw [if_pos hcond]
          intro _
          exact hcond
        · rw [if_neg hcond]
          intro hne
          have := ih hne
          push_cast
          push_cast at this
          linarith
      · rw [h, recordFailure_eq]
        have hle : cfg.failure_threshold ≤ (s0.failure_count : ℤ) := by
          apply ih
          rw [hs0]
          intro hcon
          exact CircuitState.noConfusion hcon
        by_cases hcond : cfg.failure_threshold ≤ ((s0.failure_count + 1 : ℕ) : ℤ)
        · rw [if_pos hcond]
          intro _
          exact hcond
        · rw [if_neg hcond]
          intro _
          push_cast
          push_cast at hle
          linarith

/-- C3: when `execute` runs on a reachable OPEN breaker whose reset timeout
has elapsed, the one call is admitted as the HALF_OPEN trial (the operation is
invoked exactly once, whether it succeeds or fails); on success the breaker is
fully reset (CLOSED, zero failures, no failure time, base reset timeout); on
failure the breaker returns to OPEN with the reset timeout grown by the
backoff factor and capped at the maximum. -/
theorem open_expired_trial (cfg : CircuitBreakerConfig) (s : BreakerState)
    (t now : ℚ) (hr : Reachable cfg s) (hs : s.state = .OPEN)
    (hl : s.last_failure_time = some t)
    (he : s.current_reset_timeout ≤ now - t) :
    ((execute cfg now (Except.ok () : Except Unit Unit) s).calls = 1
      ∧ (execute cfg now (Except.error () : Except Unit Unit) s).calls = 1)
    ∧ (execute cfg now (Except.ok () : Except Unit Unit) s).post = resetBreaker cfg
    ∧ (execute cfg now (Except.error () : Except Unit Unit) s).post.state = .OPEN
    ∧ (execute cfg now (Except.error () : Except Unit Unit) s).post.current_reset_timeout
        = min (s.current_reset_timeout * cfg.backoff_factor) cfg.max_reset_timeout := by
  have hnl : ¬ now - t < s.current_reset_timeout := not_lt.mpr he
  have hok := execute_open_expired cfg now t (Except.ok () : Except Unit Unit) s hs hl hnl
  have herr := execute_open_expired cfg now t (Except.error () : Except Unit Unit) s hs hl hnl
  have hcount : cfg.failure_threshold ≤ (s.failure_count : ℤ) := by
    apply reachable_not_closed_threshold cfg s hr
    rw [hs]
    intro hcon
    exact CircuitState.noConfusion hcon
  have hcond : cfg.failure_threshold ≤ ((s.failure_count + 1 : ℕ) : ℤ) := by
    push_cast
    push_cast at hcount
    linarith
  refine ⟨⟨by rw [hok]; rfl, by rw [herr]; rfl⟩, ?_, ?_, ?_⟩
  · rw [hok]
    unfold attempt
    rw [if_pos]
    intro hcon
    exact CircuitState.noConfusion hcon
  · rw [herr]
    show (recordFailure cfg now { s with state := .HALF_OPEN }).state = .OPEN
    rw [recordFailure_eq]
    rw [if_pos hcond]
  · rw [herr]
    show (recordFailure cfg now { s with state := .HALF_OPEN }).current_reset_timeout
        = min (s.current_reset_timeout * cfg.backoff_factor) cfg.max_reset_timeout
    rw [recordFailure_eq]
    rw [if_pos hcond]

/-- Threshold-1 breaker used in the C3 witness. -/
def cfgW3 : CircuitBreakerConfig :=
  { failure_threshold := 1, reset_timeout := 10, max_reset_timeout := 300,
    backoff_factor := 2 }

/-- The breaker of `cfgW3` right after its first (tripping) failure at time 0:
OPEN with current reset timeout 20. -/
def sW3 : BreakerState :=
  (execute cfgW3 0 (Except.error () : Except Unit Unit) (initBreaker cfgW3)).post

theorem open_expired_trial_witness :
    ((execute cfgW3 20 (Except.ok () : Except Unit Unit) sW3).calls = 1
      ∧ (execute cfgW3 20 (Except.error () : Except Unit Unit) sW3).calls = 1)
    ∧ (execute cfgW3 20 (Except.ok () : Except Unit Unit) sW3).post = resetBreaker cfgW3
    ∧ (execute cfgW3 20 (Except.error () : Except Unit Unit) sW3).post.state = .OPEN
    ∧ (execute cfgW3 20 (Except.error () : Except Unit Unit) sW3).post.current_reset_timeout
        = min (sW3.current_reset_timeout * cfgW3.backoff_factor) cfgW3.max_reset_timeout :=
  open_expired_trial cfgW3 sW3 0 20
    (Reachable.step 0 (Except.error ()) Reachable.init)
    (by norm_num +decide [sW3, execute, attempt, recordFailure, initBreaker, cfgW3])
    (by norm_num +decide [sW3, execute, attempt, recordFailure, initBreaker, cfgW3])
    (by norm_num +decide [sW3, execute, attempt, recordFailure, initBreaker, cfgW3])

/-- A configuration with `backoff_factor ≥ 1` whose base reset timeout exceeds
the maximum reset timeout. -/
def cfgBad : CircuitBreakerConfig :=
  { failure_threshold := 5, reset_timeout := 400, max_reset_timeout := 300,
    backoff_factor := 1 }

/-- C9 counterexample: with `backoff_factor = 1 ≥ 1` but
`reset_timeout = 400 > 300 = max_reset_timeout`, the freshly constructed
breaker (a reachable state) already has its current reset timeout outside
`[reset_timeout, max_reset_timeout]`. -/
theorem reset_above_max_violates_interval :
    1 ≤ cfgBad.backoff_factor
    ∧ Reachable cfgBad (initBreaker cfgBad)
    ∧ ¬ ((initBreaker cfgBad).current_reset_timeout ≤ cfgBad.max_reset_timeout) :=
  ⟨by norm_num [cfgBad], Reachable.init, by norm_num [cfgBad, initBreaker]⟩

/-- C9 (amended): when additionally `0 ≤ reset_timeout ≤ max_reset_timeout`,
every reachable breaker state keeps its current reset timeout inside
`[reset_timeout, max_reset_timeout]`. -/
theorem current_reset_timeout_bounds (cfg : CircuitBreakerConfig)
    (hb : 1 ≤ cfg.backoff_factor) (h0 : 0 ≤ cfg.reset_timeout)
    (hm : cfg.reset_timeout ≤ cfg.max_reset_timeout)
    (s : BreakerState) (hr : Reachable cfg s) :
    cfg.reset_timeout ≤ s.current_reset_timeout
    ∧ s.current_reset_timeout ≤ cfg.max_reset_timeout := by
  induction hr with
  | init => exact ⟨le_refl _, hm⟩
  | step now op hr ih =>
      rename_i s0
      have hmin : cfg.reset_timeout
            ≤ min (s0.current_reset_timeout * cfg.backoff_factor)
                cfg.max_reset_timeout
          ∧ min (s0.current_reset_timeout * cfg.backoff_factor)
                cfg.max_reset_timeout ≤ cfg.max_reset_timeout := by
        constructor
        · apply le_min _ hm
          calc cfg.reset_timeout ≤ s0.current_reset_timeout := ih.1
            _ = s0.current_reset_timeout * 1 := (mul_one _).symm
            _ ≤ s0.current_reset_timeout * cfg.backoff_factor := by
                apply mul_le_mul_of_nonneg_left hb
                exact le_trans h0 ih.1
        · exact min_le_right _ _
      rcases execute_post_cases cfg now op s0 with h | h | h | ⟨_, h⟩
      · rw [h]; exact ih
      · rw [h]; exact ⟨le_refl _, hm⟩
      · rw [h, recordFailure_eq]
        split
        · exact hmin
        · exact ih
      · rw [h, recordFailure_eq]
        split
        · exact hmin
        · exact ih

theorem current_reset_timeout_bounds_witness :
    defaultConfig.reset_timeout
        ≤ (runFails defaultConfig [0, 1, 2, 3, 4]
            (initBreaker defaultConfig)).current_reset_timeout
    ∧ (runFails defaultConfig [0, 1, 2, 3, 4]
          (initBreaker defaultConfig)).current_reset_timeout
        ≤ defaultConfig.max_reset_timeout := by
  have hreach : Reachable defaultConfig
      (runFails defaultConfig [0, 1, 2, 3, 4] (initBreaker defaultConfig)) := by
    show Reachable defaultConfig
      (execute defaultConfig 4 (Except.error ())
        (execute defaultConfig 3 (Except.error ())
          (execute defaultConfig 2 (Except.error ())
            (execute defaultConfig 1 (Except.error ())
              (execute defaultConfig 0 (Except.error ())
                (initBreaker defaultConfig)).post).post).post).post).post
    exact Reachable.step 4 _ (Reachable.step 3 _ (Reachable.step 2 _
      (Reachable.step 1 _ (Reachable.step 0 _ Reachable.init))))
  exact current_reset_timeout_bounds defaultConfig (by norm_num [defaultConfig])
    (by norm_num [defaultConfig]) (by norm_num [defaultConfig]) _ hreach

/-! ### Events as Python dicts -/

/-- Values stored in an event payload. -/
inductive JValue where
  | str (s : String)
  | num (n : ℤ)
deriving DecidableEq

/-- An Event: a mapping of string keys to values, embedded as a key-value list
with Python-dict insertion-order semantics (keys unique by construction). -/
abbrev Event := List (String × JValue)

/-- `d[k]` lookup (first matching key). -/
def dictGet : Event → String → Option JValue
  | [], _ => none
  | (k1, v1) :: rest, k => if k1 = k then some v1 else dictGet rest k

/-- `d[k] = v` assignment: replace the value in place if the key is present,
otherwise append the new pair at the end, as a Python dict does. -/
def dictSet : Event → String → JValue → Event
  | [], k, v => [(k, v)]
  | (k1, v1) :: rest, k, v =>
      if k1 = k then (k, v) :: rest else (k1, v1) :: dictSet rest k v

/-- `d.update(ad)`: assign every pair of `ad` into `d` in order. -/
def dictUpdate (m : Event) (ad : Event) : Event :=
  ad.foldl (fun acc p => dictSet acc p.1 p.2) m

/-- The first of two optional values, mirroring "the updating dict wins". -/
def optionFirst (a b : Option JValue) : Option JValue :=
  match a with
  | some v => some v
  | none => b

theorem dictGet_eq_none (l : Event) (k : String)
    (h : k ∉ l.map Prod.fst) : dictGet l k = none := by
  induction l with
  | nil => rfl
  | cons p rest ih =>
      obtain ⟨k1, v1⟩ := p
      simp only [List.map_cons, List.mem_cons] at h
      push_neg at h
      show (if k1 = k then some v1 else dictGet rest k) = none
      rw [if_neg (fun hh => h.1 hh.symm)]
      exact ih h.2

theorem dictGet_dictSet (m : Event) (k : String) (v : JValue) (k2 : String) :
    dictGet (dictSet m k v) k2 = if k2 = k then some v else dictGet m k2 := by
  induction m with
  | nil =>
      show dictGet [(k, v)] k2 = if k2 = k then some v else none
      by_cases h : k2 = k
      · subst h
        simp [dictGet]
      · have h2 : ¬ k = k2 := fun hh => h hh.symm
        simp [dictGet, h, h2]
  | cons p rest ih =>
      obtain ⟨k1, v1⟩ := p
      simp only [dictSet]
      by_cases h1 : k1 = k
      · rw [if_pos h1]
        subst h1
        simp only [dictGet]
        by_cases h2 : k1 = k2
        · subst h2
          simp
        · have h2s : ¬ k2 = k1 := fun hh => h2 hh.symm
          rw [if_neg h2, if_neg h2s, if_neg h2]
      · rw [if_neg h1]
        simp only [dictGet]
        by_cases h2 : k1 = k2
        · subst h2
          rw [if_pos rfl, if_pos rfl, if_neg h1]
        · rw [if_neg h2, if_neg h2]
          exact ih

theorem dictGet_dictUpdate (ad : Event) (hn : (ad.map Prod.fst).Nodup) :
    ∀ (m : Event) (k : String),
      dictGet (dictUpdate m ad) k = optionFirst (dictGet ad k) (dictGet m k) := by
  induction ad with
  | nil =>
      intro m k
      rfl
  | cons p rest ih =>
      obtain ⟨k1, v1⟩ := p
      simp only [List.map_cons, List.nodup_cons] at hn
      intro m k
      have hstep : dictUpdate m ((k1, v1) :: rest)
          = dictUpdate (dictSet m k1 v1) rest := rfl
      rw [hstep, ih hn.2]
      by_cases h : k1 = k
      · subst h
        have hrest : dictGet rest k1 = none :=
          dictGet_eq_none rest k1 hn.1
        show optionFirst (dictGet rest k1) (dictGet (dictSet m k1 v1) k1)
            = optionFirst (dictGet ((k1, v1) :: rest) k1) (dictGet m k1)
        rw [hrest, dictGet_dictSet]
        simp [dictGet, optionFirst]
      · have hs : ¬ k = k1 := fun hh => h hh.symm
        show optionFirst (dictGet rest k) (dictGet (dictSet m k1 v1) k)
            = optionFirst (dictGet ((k1, v1) :: rest) k) (dictGet m k)
        rw [dictGet_dictSet, if_neg hs]
        simp [dictGet, h]

/-! ### EventSubscriber._process_message -/

/-- The outcome of a registered handler's `handle` call. -/
inductive HandlerOutcome where
  | success
  | raises
deriving DecidableEq

/-- The shape of an inbound message body as seen by
`EventSubscriber._process_message`:
`malformed` — `json.loads(body)` raises `JSONDecodeError`;
`nonMapping` — the body is valid JSON but not an object, so
`event_data.get("type")` raises and lands in the outer `except Exception`;
`mapping etype` — a JSON object whose `"type"` entry is `etype`
(absent, a string, or a non-string value). -/
inductive MsgBody where
  | malformed
  | nonMapping
  | mapping (etype : Option JValue)
deriving DecidableEq

/-- An acknowledgement action issued on the channel:
`channel.basic_ack` or `channel.basic_nack(requeue=...)`. -/
inductive AckAction where
  | ack
  | nack (requeue : Bool)
deriving DecidableEq

/-- `self._handlers.get(event_type)`: only a string `"type"` value can match a
registered handler (the registry is keyed by strings); `None` or a non-string
value finds nothing. -/
def lookupHandler (handlers : String → Option HandlerOutcome) :
    Option JValue → Option HandlerOutcome
  | some (.str s) => handlers s
  | _ => none

/-- `EventSubscriber._process_message`, reduced to the acknowledgement
actions it issues: malformed payload → ack (discard); valid JSON that is not
an object → unexpected dispatch error → nack with requeue=False; object with
a registered handler → ack on success, nack with requeue=True if the handler
raises; object without a registered handler → ack (discard). -/
def processMessage (handlers : String → Option HandlerOutcome)
    (body : MsgBody) : List AckAction :=
  match body with
  | .malformed => [.ack]
  | .nonMapping => [.nack false]
  | .mapping etype =>
      match lookupHandler handlers etype with
      | some .success => [.ack]
      | some .raises => [.nack true]
      | none => [.ack]

/-- Whether an action is an ack. -/
def isAck : AckAction → Bool
  | .ack => true
  | .nack _ => false

/-- How many acks a run of the callback issued. -/
def countAcks (l : List AckAction) : ℕ := (l.filter isAck).length

/-- How many nacks a run of the callback issued. -/
def countNacks (l : List AckAction) : ℕ := (l.filter (fun a => ! isAck a)).length

/-- C4: a malformed (unparseable) payload makes the subscriber callback issue
exactly one ack and no nack, for every handler registry — the message is
discarded, never retried. -/
theorem malformed_message_acked (handlers : String → Option HandlerOutcome) :
    countAcks (processMessage handlers .malformed) = 1
    ∧ countNacks (processMessage handlers .malformed) = 0 :=
  ⟨rfl, rfl⟩

/-- C5: a registered handler that raises yields exactly one nack with
requeue=True; any other unexpected dispatch error (valid JSON, not an object)
yields exactly one nack with requeue=False; and in every case a nack carries
requeue=True exactly when the failure came from a registered handler. -/
theorem nack_requeue_policy :
    (∀ (handlers : String → Option HandlerOutcome) (etype : Option JValue),
        lookupHandler handlers etype = some .raises →
        processMessage handlers (.mapping etype) = [.nack true])
    ∧ (∀ (handlers : String → Option HandlerOutcome),
        processMessage handlers .nonMapping = [.nack false])
    ∧ (∀ (handlers : String → Option HandlerOutcome) (body : MsgBody) (b : Bool),
        AckAction.nack b ∈ processMessage handlers body →
        (b = true ↔ ∃ etype, body = .mapping etype
            ∧ lookupHandler handlers etype = some .raises)) := by
  refine ⟨?_, ?_, ?_⟩
  · intro handlers etype h
    simp only [processMessage, h]
  · intro handlers
    rfl
  · intro handlers body b hmem
    cases body with
    | malformed => simp [processMessage] at hmem
    | nonMapping =>
        simp only [processMessage, List.mem_singleton] at hmem
        have hb : b = false := by
          cases hmem
          rfl
        subst hb
        constructor
        · intro hcon
          exact absurd hcon (by simp)
        · rintro ⟨etype, het, _⟩
          exact MsgBody.noConfusion het
    | mapping etype =>
        rcases hlk : lookupHandler handlers etype with _ | oc
        · simp [processMessage, hlk] at hmem
        · cases oc with
          | success => simp [processMessage, hlk] at hmem
          | raises =>
              simp only [processMessage, hlk, List.mem_singleton] at hmem
              have hb : b = true := by
                cases hmem
                rfl
              subst hb
              simp only [true_iff]
              exact ⟨etype, rfl, hlk⟩

/-- A registry whose only handler (for "order.created") raises. -/
def exHandlers : String → Option HandlerOutcome :=
  fun s => if s = "order.created" then some .raises else none

theorem nack_requeue_policy_witness :
    processMessage exHandlers (.mapping (some (.str "order.created")))
        = [.nack true]
    ∧ processMessage exHandlers .nonMapping = [.nack false] :=
  ⟨nack_requeue_policy.1 exHandlers (some (.str "order.created")) (by
      show exHandlers "order.created" = some .raises
      simp [exHandlers]),
   nack_requeue_policy.2.1 exHandlers⟩

/-! ### EventProducer.publish -/

/-- The root cause wrapped by a `PublishError`:
the `ValueError("No generator registered ...")`, the breaker's
`CircuitBreakerError`, or the broker operation's own failure. -/
inductive PubCause where
  | noGenerator
  | circuitOpen
  | brokerFailure
deriving DecidableEq

/-- `PublishError` with its `{event_type, routing_key}` context. -/
structure PublishErr where
  cause : PubCause
  event_type : String
  routing_key : String
deriving DecidableEq

/-- The event actually handed to `broker.publish`: the generator's event,
updated with `additional_data` when that dict is non-empty (Python's truthy
check), and finally with `event_data["type"] = event_type` forced. -/
def mergedEvent (gen : Event) (additional_data : Option Event)
    (event_type : String) : Event :=
  dictSet
    (match additional_data with
     | some ad => if ad.isEmpty then gen else dictUpdate gen ad
     | none => gen)
    "type" (.str event_type)

/-- Step 5 of `EventProducer.publish`:
`circuit_breaker.execute(broker.publish, routing_key, event_data)`, with the
broker's behaviour given by `brokerOk`.  Returns the `publish` result (errors
wrapped as `PublishError`), the breaker state afterwards, and the list of
`broker.publish` invocations (routing key and transmitted event). -/
def publishViaBreaker (cfg : CircuitBreakerConfig) (now : ℚ) (bs : BreakerState)
    (brokerOk : Bool) (event_type routing_key : String) (event_data : Event) :
    Except PublishErr Unit × BreakerState × List (String × Event) :=
  ((match (execute cfg now
        (if brokerOk then Except.ok () else Except.error () : Except Unit Unit)
        bs).result with
    | .ok _ => Except.ok ()
    | .circuitOpen => Except.error ⟨.circuitOpen, event_type, routing_key⟩
    | .opError _ => Except.error ⟨.brokerFailure, event_type, routing_key⟩),
   (execute cfg now
      (if brokerOk then Except.ok () else Except.error () : Except Unit Unit)
      bs).post,
   if (execute cfg now
        (if brokerOk then Except.ok () else Except.error () : Except Unit Unit)
        bs).calls = 1
   then [(routing_key, event_data)] else [])

/-- `EventProducer.publish`: look up the generator (failing with a
`PublishError` wrapping the no-generator condition, without touching the
broker, when none is registered), build the merged event, and send it through
the circuit breaker. -/
def producerPublish (gens : String → Option Event) (cfg : CircuitBreakerConfig)
    (now : ℚ) (bs : BreakerState) (brokerOk : Bool)
    (event_type routing_key : String) (additional_data : Option Event) :
    Except PublishErr Unit × BreakerState × List (String × Event) :=
  match gens event_type with
  | none => (Except.error ⟨.noGenerator, event_type, routing_key⟩, bs, [])
  | some gen =>
      publishViaBreaker cfg now bs brokerOk event_type routing_key
        (mergedEvent gen additional_data event_type)

/-- The attempt always invokes the operation exactly once. -/
theorem attempt_calls {α ε : Type} (cfg : CircuitBreakerConfig) (now : ℚ)
    (op : Except ε α) (s : BreakerState) :
    (attempt cfg now op s).calls = 1 := by
  cases op <;> rfl

/-- From a CLOSED breaker the operation is always invoked exactly once. -/
theorem execute_closed_calls {α ε : Type} (cfg : CircuitBreakerConfig)
    (now : ℚ) (op : Except ε α) (s : BreakerState) (h : s.state = .CLOSED) :
    (execute cfg now op s).calls = 1 := by
  rw [execute_not_open cfg now op s (by rw [h]; intro hc; exact CircuitState.noConfusion hc)]
  exact attempt_calls cfg now op s

/-- The generator registry of the worked example: only "order.created",
returning `{amount: 10}`. -/
def exGens : String → Option Event :=
  fun s => if s = "order.created" then some [("amount", JValue.num 10)] else none

/-- C6: with a registered generator and a CLOSED breaker, `publish` hands the
broker exactly one event on the requested routing key; that event agrees at
every key with the generator's output updated by `additional_data`
(additional-data keys win) and with `"type"` forced to the event type.  In
particular, a generator returning `{amount: 10}` published as
"order.created" to "orders.new" transmits
`{amount: 10, type: "order.created"}`. -/
theorem publish_merges_and_forces_type
    (cfg : CircuitBreakerConfig) (now : ℚ) (bs : BreakerState) (brokerOk : Bool)
    (gens : String → Option Event) (gen ad : Event) (et rk : String)
    (hg : gens et = some gen) (hn : (ad.map Prod.fst).Nodup)
    (hs : bs.state = .CLOSED) :
    (∃ ev, (producerPublish gens cfg now bs brokerOk et rk (some ad)).2.2
          = [(rk, ev)]
        ∧ ∀ k, dictGet ev k
            = if k = "type" then some (JValue.str et)
              else optionFirst (dictGet ad k) (dictGet gen k))
    ∧ (producerPublish exGens defaultConfig 0 (initBreaker defaultConfig) true
          "order.created" "orders.new" none).2.2
        = [("orders.new",
            [("amount", JValue.num 10), ("type", JValue.str "order.created")])] := by
  constructor
  · refine ⟨mergedEvent gen (some ad) et, ?_, ?_⟩
    · have hp : producerPublish gens cfg now bs brokerOk et rk (some ad)
          = publishViaBreaker cfg now bs brokerOk et rk
              (mergedEvent gen (some ad) et) := by
        unfold producerPublish
        rw [hg]
      rw [hp]
      unfold publishViaBreaker
      rw [execute_closed_calls cfg now _ bs hs]
      rfl
    · intro k
      unfold mergedEvent
      rw [dictGet_dictSet]
      by_cases hk : k = "type"
      · rw [if_pos hk, if_pos hk]
      · rw [if_neg hk, if_neg hk]
        show dictGet (if ad.isEmpty then gen else dictUpdate gen ad) k
            = optionFirst (dictGet ad k) (dictGet gen k)
        by_cases hemp : ad.isEmpty
        · rw [if_pos hemp]
          have : ad = [] := List.isEmpty_iff.mp hemp
          subst this
          rfl
        · rw [if_neg hemp]
          exact dictGet_dictUpdate ad hn gen k
  · rfl

theorem publish_merges_and_forces_type_witness :
    ∃ ev, (producerPublish exGens defaultConfig 0 (initBreaker defaultConfig)
          true "order.created" "orders.new"
          (some [("source", JValue.str "web")])).2.2
        = [("orders.new", ev)]
      ∧ ∀ k, dictGet ev k
          = if k = "type" then some (JValue.str "order.created")
            else optionFirst (dictGet [("source", JValue.str "web")] k)
              (dictGet [("amount", JValue.num 10)] k) :=
  (publish_merges_and_forces_type defaultConfig 0 (initBreaker defaultConfig)
    true exGens [("amount", JValue.num 10)] [("source", JValue.str "web")]
    "order.created" "orders.new" (by simp [exGens]) (by simp) rfl).1

/-- C7: when no generator is registered for the event type, `publish` fails
with a `PublishError` wrapping the no-generator condition and carrying the
event type and routing key, the breaker state is untouched, and the broker's
publish primitive is never called (zero invocations). -/
theorem publish_no_generator (gens : String → Option Event)
    (cfg : CircuitBreakerConfig) (now : ℚ) (bs : BreakerState) (brokerOk : Bool)
    (et rk : String) (ad : Option Event) (h : gens et = none) :
    producerPublish gens cfg now bs brokerOk et rk ad
      = (Except.error ⟨.noGenerator, et, rk⟩, bs, []) := by
  unfold producerPublish
  rw [h]

theorem publish_no_generator_witness :
    producerPublish exGens defaultConfig 0 (initBreaker defaultConfig) true
        "x" "r" none
      = (Except.error ⟨.noGenerator, "x", "r"⟩, initBreaker defaultConfig, []) :=
  publish_no_generator exGens defaultConfig 0 (initBreaker defaultConfig) true
    "x" "r" none (by simp [exGens])
